import Mathlib

/-!
Shallow embedding of the numerical-integration TUI (`src/main.rs`).

Modelling conventions:
* `f64` values are modelled as exact rationals `ℚ`.
* Rust `Vec`s of fixed length 2 (`bounds_text`, `window_x_text`, …) are
  modelled as pairs; index `[0]` is `.1`, index `[1]` is `.2`.
* A Rust panic (`unwrap()` on `None`/`Err`, an out-of-range slice) is
  modelled as `Option.none` in the result of the operation.
* The external expression library (meval) is a black box per the spec:
  a parsed-and-bound expression is modelled directly as a function
  `ℚ → ℚ`, and the two fallible text conversions
  (`String::parse::<Expr>` followed by `bind("x")`, and
  `String::parse::<f64>`) are passed to the event handler as explicit
  oracles of type `String → Option _`.
* Each `while` loop is translated into a structurally recursive
  function on a fuel argument; the fuel supplied by the wrapper is the
  exact number of iterations the loop performs, namely
  `⌈(limit - start)/step⌉` when `step > 0` (proved below).  When
  `step ≤ 0` and the guard holds the Rust loop diverges; that case is
  unreachable in the program (the sampling step `dx` is the constant
  `0.001`, and each drawing-loop step is `|span|/100`, which is `0`
  only when the guard is false at entry).
-/

namespace NumInt

/-- `enum CurrentScreen` from the source. -/
inductive CurrentScreen
  | Main
  | Settings
  deriving DecidableEq

/-- `enum Settings` from the source: the eight input-field identities. -/
inductive Settings
  | Function
  | LowerBound
  | UpperBound
  | RecalculateArea
  | MinimumX
  | MinimumY
  | MaximumX
  | MaximumY
  deriving DecidableEq

/-- `const SETTINGS_LAYOUT: [[Settings; 4]; 2]` from the source. -/
def SETTINGS_LAYOUT : List (List Settings) :=
  [[.Function, .LowerBound, .UpperBound, .RecalculateArea],
   [.MinimumX, .MaximumX, .MinimumY, .MaximumY]]

/-- Array indexing `SETTINGS_LAYOUT[y][x]`; out of bounds is a Rust
panic, modelled as `none`. -/
def settingsLayout (y x : ℕ) : Option Settings :=
  (SETTINGS_LAYOUT[y]?).bind fun row => row[x]?

/-- `struct App` from the source.  `settings_focus` is stored in the
source as a reference into `SETTINGS_LAYOUT`; here it is the referenced
value. -/
structure App where
  function_text : String
  expression : ℚ → ℚ
  data : List (ℚ × ℚ)
  limits_indexs : Option ℕ × Option ℕ
  dx : ℚ
  bounds_text : String × String
  bounds : ℚ × ℚ
  upper_bound_line : List (ℚ × ℚ)
  lower_bound_line : List (ℚ × ℚ)
  x_axis_line : List (ℚ × ℚ)
  window_x : ℚ × ℚ
  window_x_text : String × String
  window_y : ℚ × ℚ
  window_y_text : String × String
  area : ℚ
  active_screen : CurrentScreen
  settings_focus : Settings
  settings_position_x : ℕ
  settings_position_y : ℕ
  exit : Bool

/-- `App::new()` from the source.  `"x".parse().unwrap()` produces the
expression `x`, whose bound form is the identity function. -/
def App.new : App where
  function_text := "x"
  expression := fun x => x
  data := []
  limits_indexs := (none, none)
  dx := 1/1000
  bounds_text := ("0", "0")
  bounds := (0, 0)
  upper_bound_line := []
  lower_bound_line := []
  x_axis_line := []
  window_x := (-5, 5)
  window_x_text := ("-5", "5")
  window_y := (-10, 10)
  window_y_text := ("-10", "10")
  area := 0
  active_screen := .Main
  settings_focus := .Function
  settings_position_x := 0
  settings_position_y := 0
  exit := false

/-- The sampling `while` loop of `App::populate_data`: while
`x < window_x[1]`, append `(x, f x)` and record the limit indices by
the source's `if … else if …`, then advance `x` by `dx`.  The fuel is
the exact iteration count (see `sampleLoopAux_length_eq_fuel`). -/
def sampleLoopAux (f : ℚ → ℚ) (xmax dx lower upper : ℚ) :
    ℕ → ℚ → ℕ → Option ℕ → Option ℕ →
    List (ℚ × ℚ) × (Option ℕ × Option ℕ)
  | 0, _, _, li, ui => ([], (li, ui))
  | fuel + 1, x, i, li, ui =>
    if x < xmax then
      let y := f x
      let lu :=
        if li = none ∧ lower ≤ x then (some i, ui)
        else if ui = none ∧ upper ≤ x then (li, some i)
        else (li, ui)
      let r := sampleLoopAux f xmax dx lower upper fuel (x + dx) (i + 1) lu.1 lu.2
      ((x, y) :: r.1, r.2)
    else ([], (li, ui))

/-- The sampling loop started as in `App::populate_data`: from
`x = window_x[0]`, `i = 0`, `limits_indexs = (None, None)`. -/
def sampleLoop (f : ℚ → ℚ) (xmax dx lower upper xmin : ℚ) :
    List (ℚ × ℚ) × (Option ℕ × Option ℕ) :=
  sampleLoopAux f xmax dx lower upper (⌈(xmax - xmin) / dx⌉).toNat xmin 0 none none

/-- The `while y < height` loop shared by
`App::populate_upper_bound_line` and `App::populate_lower_bound_line`:
append `(x, y)` and advance `y` by `step`. -/
def boundLineAux (x height step : ℚ) : ℕ → ℚ → List (ℚ × ℚ)
  | 0, _ => []
  | fuel + 1, y =>
    if y < height then (x, y) :: boundLineAux x height step fuel (y + step)
    else []

/-- `App::populate_upper_bound_line`: vertical marker at `x = bounds[1]`
from `y = window_y[0]` while `y < function(x)`, step `|y₀ - height|/100`. -/
def populate_upper_bound_line (app : App) : App :=
  let x := app.bounds.2
  let height := app.expression x
  let y := app.window_y.1
  let step := |y - height| / 100
  { app with
    upper_bound_line := boundLineAux x height step (⌈(height - y) / step⌉).toNat y }

/-- `App::populate_lower_bound_line`: the same at `x = bounds[0]`. -/
def populate_lower_bound_line (app : App) : App :=
  let x := app.bounds.1
  let height := app.expression x
  let y := app.window_y.1
  let step := |y - height| / 100
  { app with
    lower_bound_line := boundLineAux x height step (⌈(height - y) / step⌉).toNat y }

/-- The `while x < window_x[1]` loop of `App::populate_x_axis_line`:
append `(x, 0)` and advance `x` by `step`. -/
def xAxisLineAux (xmax step : ℚ) : ℕ → ℚ → List (ℚ × ℚ)
  | 0, _ => []
  | fuel + 1, x =>
    if x < xmax then (x, 0) :: xAxisLineAux xmax step fuel (x + step)
    else []

/-- `App::populate_x_axis_line`: horizontal zero line across the window,
step `|window_x[1] - window_x[0]|/100`. -/
def populate_x_axis_line (app : App) : App :=
  let step := |app.window_x.2 - app.window_x.1| / 100
  { app with
    x_axis_line :=
      xAxisLineAux app.window_x.2 step
        (⌈(app.window_x.2 - app.window_x.1) / step⌉).toNat app.window_x.1 }

/-- Rust slice `data[l..u]`: defined when `l ≤ u ≤ data.len()`, a panic
(`none`) otherwise. -/
def sliceRange (xs : List (ℚ × ℚ)) (l u : ℕ) : Option (List (ℚ × ℚ)) :=
  if l ≤ u ∧ u ≤ xs.length then some ((xs.drop l).take (u - l)) else none

/-- Rust `slice.windows(2)` restricted to pairs: the list of adjacent
pairs of `s`. -/
def windowsPairs (s : List (ℚ × ℚ)) : List ((ℚ × ℚ) × (ℚ × ℚ)) :=
  s.zip s.tail

/-- `App::calculate_area`: unwrap both limit indices, slice the data,
and sum `dx * (y2 + y1) / 2` over adjacent pairs.  Both `unwrap`s and
the slice can panic (`none`). -/
def calculate_area (app : App) : Option App :=
  match app.limits_indexs.1, app.limits_indexs.2 with
  | some l, some u =>
    match sliceRange app.data l u with
    | some s =>
      some { app with
             area := ((windowsPairs s).map fun w => app.dx * (w.2.2 + w.1.2) / 2).sum }
    | none => none
  | _, _ => none

/-- `App::populate_data`: rebuild the samples and limit indices, then
the two bound lines and the zero line, then recalculate the area (which
may panic). -/
def populate_data (app : App) : Option App :=
  let r := sampleLoop app.expression app.window_x.2 app.dx app.bounds.1 app.bounds.2
            app.window_x.1
  let app1 := { app with data := r.1, limits_indexs := r.2 }
  let app2 := populate_upper_bound_line app1
  let app3 := populate_lower_bound_line app2
  let app4 := populate_x_axis_line app3
  calculate_area app4

/-- The key codes `App::handle_events` distinguishes; every other event
falls into `other`. -/
inductive KeyCode
  | char (c : Char)
  | backspace
  | enter
  | left
  | right
  | up
  | down
  | esc
  | tab
  | other

/-- `App::handle_events`, one key event.  `parseExpr` models
`String::parse::<Expr>` followed by `bind("x")`; `parseNum` models
`String::parse::<f64>`.  A `none` result is a Rust panic (the source
`unwrap`s every parse). -/
def handle_events (parseExpr : String → Option (ℚ → ℚ))
    (parseNum : String → Option ℚ) (app : App) (key : KeyCode) : Option App :=
  match key with
  | .char c =>
    some (match app.settings_focus with
      | .Function => { app with function_text := app.function_text.push c }
      | .LowerBound => { app with bounds_text := (app.bounds_text.1.push c, app.bounds_text.2) }
      | .UpperBound => { app with bounds_text := (app.bounds_text.1, app.bounds_text.2.push c) }
      | .RecalculateArea => app
      | .MinimumX => { app with window_x_text := (app.window_x_text.1.push c, app.window_x_text.2) }
      | .MaximumX => { app with window_x_text := (app.window_x_text.1, app.window_x_text.2.push c) }
      | .MinimumY => { app with window_y_text := (app.window_y_text.1.push c, app.window_y_text.2) }
      | .MaximumY => { app with window_y_text := (app.window_y_text.1, app.window_y_text.2.push c) })
  | .backspace =>
    some (match app.settings_focus with
      | .Function => { app with function_text := app.function_text.dropRight 1 }
      | .LowerBound => { app with bounds_text := (app.bounds_text.1.dropRight 1, app.bounds_text.2) }
      | .UpperBound => { app with bounds_text := (app.bounds_text.1, app.bounds_text.2.dropRight 1) }
      | .RecalculateArea => app
      | .MinimumX => { app with window_x_text := (app.window_x_text.1.dropRight 1, app.window_x_text.2) }
      | .MaximumX => { app with window_x_text := (app.window_x_text.1, app.window_x_text.2.dropRight 1) }
      | .MinimumY => { app with window_y_text := (app.window_y_text.1.dropRight 1, app.window_y_text.2) }
      | .MaximumY => { app with window_y_text := (app.window_y_text.1, app.window_y_text.2.dropRight 1) })
  | .enter =>
    match app.settings_focus with
    | .Function =>
      match parseExpr app.function_text with
      | some e => populate_data { app with expression := e }
      | none => none
    | .LowerBound =>
      match parseNum app.bounds_text.1 with
      | some v => populate_data { app with bounds := (v, app.bounds.2) }
      | none => none
    | .UpperBound =>
      match parseNum app.bounds_text.2 with
      | some v => populate_data { app with bounds := (app.bounds.1, v) }
      | none => none
    | .RecalculateArea => calculate_area app
    | .MinimumX =>
      match parseNum app.window_x_text.1 with
      | some v => populate_data { app with window_x := (v, app.window_x.2) }
      | none => none
    | .MaximumX =>
      match parseNum app.window_x_text.2 with
      | some v => populate_data { app with window_x := (app.window_x.1, v) }
      | none => none
    | .MinimumY =>
      match parseNum app.window_y_text.1 with
      | some v => populate_data { app with window_y := (v, app.window_y.2) }
      | none => none
    | .MaximumY =>
      match parseNum app.window_y_text.2 with
      | some v => populate_data { app with window_y := (app.window_y.1, v) }
      | none => none
  | .left =>
    if app.settings_position_x ≠ 0 ∧ app.active_screen = .Settings then
      match settingsLayout app.settings_position_y (app.settings_position_x - 1) with
      | some s =>
        some { app with settings_position_x := app.settings_position_x - 1,
                        settings_focus := s }
      | none => none
    else some app
  | .right =>
    if app.settings_position_x ≠ 3 ∧ app.active_screen = .Settings then
      match settingsLayout app.settings_position_y (app.settings_position_x + 1) with
      | some s =>
        some { app with settings_position_x := app.settings_position_x + 1,
                        settings_focus := s }
      | none => none
    else some app
  | .up =>
    if app.settings_position_y ≠ 0 ∧ app.active_screen = .Settings then
      match settingsLayout (app.settings_position_y - 1) app.settings_position_x with
      | some s =>
        some { app with settings_position_y := app.settings_position_y - 1,
                        settings_focus := s }
      | none => none
    else some app
  | .down =>
    if app.settings_position_y ≠ 1 ∧ app.active_screen = .Settings then
      match settingsLayout (app.settings_position_y + 1) app.settings_position_x with
      | some s =>
        some { app with settings_position_y := app.settings_position_y + 1,
                        settings_focus := s }
      | none => none
    else some app
  | .esc =>
    some (match app.active_screen with
      | .Main => { app with exit := true }
      | .Settings => { app with active_screen := .Main })
  | .tab =>
    some { app with
           active_screen :=
             match app.active_screen with
             | .Main => CurrentScreen.Settings
             | .Settings => CurrentScreen.Settings }
  | .other => some app

/-- Modelled from the spec: the trapezoidal-rule approximation, "sum over
each adjacent pair `(x1,y1),(x2,y2)` in the range of
`step * (y1 + y2) / 2`".  Written from the spec's words, to be compared
with `calculate_area`. -/
def trapezoidalSum (step : ℚ) (samples : List (ℚ × ℚ)) : ℚ :=
  ((samples.zip samples.tail).map fun pq => step * (pq.1.2 + pq.2.2) / 2).sum

/-- The upper-limit index the scan of `App::populate_data` actually
records, as a function of the produced sample list `L` whose first
sample has absolute index `i`: because the scan's `else if` skips the
iteration that sets the lower index, the recorded index is the first
sample index whose `x ≥ upper`, except when that sample is the very one
that sets the lower index, in which case it is the next sample's index
(or unset if the scan ends there). -/
def upperIndexOfScan (L : List (ℚ × ℚ)) (lower upper : ℚ) (i : ℕ) : Option ℕ :=
  let j := L.findIdx? (fun p => decide (lower ≤ p.1)) i
  let k := L.findIdx? (fun p => decide (upper ≤ p.1)) i
  if k = j then j.bind fun a => if a + 1 < i + L.length then some (a + 1) else none
  else k

/-- A concrete expression-parse oracle: it parses exactly the default
function text `"x"` (to the identity) and fails on everything else, in
particular on the malformed text `"x +"` (meval rejects it). -/
def pfEx : String → Option (ℚ → ℚ) := fun s => if s = "x" then some (fun x => x) else none

/-- A concrete number-parse oracle: it parses exactly `"0"` and fails on
everything else (as `"abc".parse::<f64>()` fails). -/
def pnEx : String → Option ℚ := fun s => if s = "0" then some 0 else none

/-- Concrete session for the trapezoid witness: three unit-spaced samples
of the identity, the whole range selected. -/
def exAppTrap : App :=
  { App.new with data := [(0, 0), (1, 1), (2, 2)], limits_indexs := (some 0, some 3), dx := 1 }

/-- Concrete session whose upper limit index was never set (bounds above
the sampled window). -/
def exAppUnset : App :=
  { App.new with data := [(0, 0), (1, 1)], limits_indexs := (some 0, none) }

/-- Concrete session on the Settings screen, focus at row 1, col 2. -/
def exAppFocus : App :=
  { App.new with active_screen := .Settings, settings_focus := .MinimumY,
                 settings_position_x := 2, settings_position_y := 1 }

/-- Concrete session focused on the RecalculateArea trigger, with a
well-formed (empty) integration range recorded. -/
def exAppRecalc : App :=
  { App.new with settings_focus := .RecalculateArea, limits_indexs := (some 0, some 0) }

/-- Concrete session whose committed function text is the malformed
`"x +"`, about to be confirmed. -/
def exAppBadParse : App :=
  { App.new with function_text := "x +", active_screen := .Settings }

/-- Concrete session for the sampler witness: identity function over the
window `[0, 3)` with step 1. -/
def exAppWitC5 : App :=
  { App.new with window_x := (0, 3), dx := 1 }

/-! ### Fuel arithmetic: the loops run exactly `⌈span/step⌉` iterations -/

theorem toNat_ceil_div_eq_zero {a b : ℚ} (hb : 0 < b) :
    (⌈a / b⌉).toNat = 0 ↔ a ≤ 0 := by
  rw [Int.toNat_eq_zero, Int.ceil_le, Int.cast_zero, div_nonpos_iff]
  constructor
  · rintro (⟨_, h2⟩ | ⟨h1, _⟩)
    · exact absurd hb (not_lt.mpr h2)
    · exact h1
  · exact fun h => Or.inr ⟨h, hb.le⟩

theorem pos_of_toNat_ceil_div {a b : ℚ} (hb : 0 < b) {n : ℕ}
    (h : (⌈a / b⌉).toNat = n + 1) : 0 < a := by
  by_contra hc
  push_neg at hc
  have h0 := (toNat_ceil_div_eq_zero hb).mpr hc
  omega

theorem toNat_ceil_div_step {a b : ℚ} (hb : 0 < b) {n : ℕ}
    (h : (⌈a / b⌉).toNat = n + 1) : (⌈(a - b) / b⌉).toNat = n := by
  have hc : ⌈a / b⌉ = (n : ℤ) + 1 := by omega
  rw [sub_div, div_self hb.ne', Int.ceil_sub_one, hc]
  omega

theorem cond_some_false {α : Type} (a : α) (P : Prop) : ¬(some a = none ∧ P) :=
  fun h => Option.some_ne_none a h.1

theorem cond_none_and_pos {α : Type} {P : Prop} (hp : P) : (none : Option α) = none ∧ P :=
  ⟨rfl, hp⟩

theorem cond_none_and_neg {α : Type} {P : Prop} (hp : ¬P) :
    ¬((none : Option α) = none ∧ P) :=
  fun h => hp h.2

/-! ### The sampling loop -/

theorem sampleLoopAux_length (f : ℚ → ℚ) (xmax dx lower upper : ℚ) (hdx : 0 < dx) :
    ∀ (fuel : ℕ) (x : ℚ) (i : ℕ) (li ui : Option ℕ),
      fuel = (⌈(xmax - x) / dx⌉).toNat →
      (sampleLoopAux f xmax dx lower upper fuel x i li ui).1.length = fuel := by
  intro fuel
  induction fuel with
  | zero => intro x i li ui _; rfl
  | succ n ih =>
    intro x i li ui hf
    have hg : x < xmax := by
      have := pos_of_toNat_ceil_div hdx hf.symm
      linarith [sub_pos.mp this]
    simp only [sampleLoopAux, if_pos hg, List.length_cons]
    have hstep : n = (⌈(xmax - (x + dx)) / dx⌉).toNat := by
      rw [show xmax - (x + dx) = xmax - x - dx by ring]
      exact (toNat_ceil_div_step hdx hf.symm).symm
    rw [ih (x + dx) (i + 1) _ _ hstep]

theorem sampleLoopAux_mem (f : ℚ → ℚ) (xmax dx lower upper : ℚ) (hdx : 0 < dx) :
    ∀ (fuel : ℕ) (x : ℚ) (i : ℕ) (li ui : Option ℕ) (q : ℚ × ℚ),
      q ∈ (sampleLoopAux f xmax dx lower upper fuel x i li ui).1 →
      x ≤ q.1 ∧ q.1 < xmax := by
  intro fuel
  induction fuel with
  | zero => intro x i li ui q hq; simp [sampleLoopAux] at hq
  | succ n ih =>
    intro x i li ui q hq
    by_cases hg : x < xmax
    · simp only [sampleLoopAux, if_pos hg, List.mem_cons] at hq
      rcases hq with hq | hq
      · rw [hq]; exact ⟨le_refl x, hg⟩
      · have h := ih (x + dx) (i + 1) _ _ q hq
        exact ⟨le_trans (by linarith) h.1, h.2⟩
    · simp [sampleLoopAux, if_neg hg] at hq

theorem sampleLoopAux_first (f : ℚ → ℚ) (xmax dx lower upper : ℚ)
    (fuel : ℕ) (x : ℚ) (i : ℕ) (li ui : Option ℕ) :
    ∀ q ∈ (sampleLoopAux f xmax dx lower upper fuel x i li ui).1.head?, q = (x, f x) := by
  cases fuel with
  | zero => intro q hq; simp [sampleLoopAux] at hq
  | succ n =>
    intro q hq
    by_cases hg : x < xmax
    · simp only [sampleLoopAux, if_pos hg, List.head?_cons, Option.mem_def,
        Option.some_inj] at hq
      exact hq.symm
    · simp [sampleLoopAux, if_neg hg] at hq

theorem findIdx?_ge {α : Type} (p : α → Bool) :
    ∀ (l : List α) (i m : ℕ), l.findIdx? p i = some m → i ≤ m := by
  intro l
  induction l with
  | nil => intro i m h; simp [List.findIdx?_nil] at h
  | cons a t ih =>
    intro i m h
    rw [List.findIdx?_cons] at h
    by_cases hp : p a = true
    · rw [if_pos hp, Option.some_inj] at h
      omega
    · rw [if_neg hp] at h
      have := ih (i + 1) m h
      omega

theorem sampleLoopAux_inds_both (f : ℚ → ℚ) (xmax dx lower upper : ℚ) :
    ∀ (fuel : ℕ) (x : ℚ) (i : ℕ) (a b : ℕ),
      (sampleLoopAux f xmax dx lower upper fuel x i (some a) (some b)).2
        = (some a, some b) := by
  intro fuel
  induction fuel with
  | zero => intro x i a b; rfl
  | succ n ih =>
    intro x i a b
    by_cases hg : x < xmax
    · simp only [sampleLoopAux, if_pos hg,
        if_neg (cond_some_false a (lower ≤ x)), if_neg (cond_some_false b (upper ≤ x))]
      exact ih (x + dx) (i + 1) a b
    · simp only [sampleLoopAux, if_neg hg]

theorem sampleLoopAux_inds_li (f : ℚ → ℚ) (xmax dx lower upper : ℚ) (a : ℕ) :
    ∀ (fuel : ℕ) (x : ℚ) (i : ℕ),
      (sampleLoopAux f xmax dx lower upper fuel x i (some a) none).2
        = (some a,
           (sampleLoopAux f xmax dx lower upper fuel x i (some a) none).1.findIdx?
             (fun p => decide (upper ≤ p.1)) i) := by
  intro fuel
  induction fuel with
  | zero => intro x i; rfl
  | succ n ih =>
    intro x i
    by_cases hg : x < xmax
    · simp only [sampleLoopAux, if_pos hg, List.findIdx?_cons, true_and,
        decide_eq_true_eq]
      by_cases hu : upper ≤ x
      · rw [if_pos hu, if_pos hu]
        exact sampleLoopAux_inds_both f xmax dx lower upper n (x + dx) (i + 1) a i
      · rw [if_neg hu, if_neg hu]
        exact ih (x + dx) (i + 1)
    · simp only [sampleLoopAux, if_neg hg, List.findIdx?_nil]

theorem sampleLoopAux_inds_ui (f : ℚ → ℚ) (xmax dx lower upper : ℚ) (b : ℕ) :
    ∀ (fuel : ℕ) (x : ℚ) (i : ℕ),
      (sampleLoopAux f xmax dx lower upper fuel x i none (some b)).2
        = ((sampleLoopAux f xmax dx lower upper fuel x i none (some b)).1.findIdx?
             (fun p => decide (lower ≤ p.1)) i,
           some b) := by
  intro fuel
  induction fuel with
  | zero => intro x i; rfl
  | succ n ih =>
    intro x i
    by_cases hg : x < xmax
    · simp only [sampleLoopAux, if_pos hg, List.findIdx?_cons, true_and,
        decide_eq_true_eq]
      by_cases hl : lower ≤ x
      · rw [if_pos hl, if_pos hl]
        exact sampleLoopAux_inds_both f xmax dx lower upper n (x + dx) (i + 1) i b
      · rw [if_neg hl, if_neg hl, if_neg (cond_some_false b (upper ≤ x))]
        exact ih (x + dx) (i + 1)
    · simp only [sampleLoopAux, if_neg hg, List.findIdx?_nil]

theorem sampleLoopAux_inds_none (f : ℚ → ℚ) (xmax dx lower upper : ℚ) (hdx : 0 < dx) :
    ∀ (fuel : ℕ) (x : ℚ) (i : ℕ),
      (sampleLoopAux f xmax dx lower upper fuel x i none none).2
        = ((sampleLoopAux f xmax dx lower upper fuel x i none none).1.findIdx?
             (fun p => decide (lower ≤ p.1)) i,
           upperIndexOfScan (sampleLoopAux f xmax dx lower upper fuel x i none none).1
             lower upper i) := by
  intro fuel
  induction fuel with
  | zero => intro x i; rfl
  | succ n ih =>
    intro x i
    by_cases hg : x < xmax
    · simp only [sampleLoopAux, upperIndexOfScan, if_pos hg, List.findIdx?_cons, true_and,
        decide_eq_true_eq, List.length_cons]
      by_cases hl : lower ≤ x
      · rw [if_pos hl, if_pos hl]
        simp only []
        rw [sampleLoopAux_inds_li f xmax dx lower upper i n (x + dx) (i + 1)]
        congr 1
        by_cases hu : upper ≤ x
        · rw [if_pos hu, if_pos rfl, Option.some_bind]
          cases hcase : (sampleLoopAux f xmax dx lower upper n (x + dx) (i + 1)
              (some i) none).1 with
          | nil =>
            rw [List.findIdx?_nil, List.length_nil, if_neg (by omega)]
          | cons q t =>
            have hq : q = (x + dx, f (x + dx)) :=
              sampleLoopAux_first f xmax dx lower upper n (x + dx) (i + 1) (some i) none q
                (by rw [hcase]; rfl)
            rw [List.findIdx?_cons, List.length_cons, hq]
            simp only [decide_eq_true_eq]
            rw [if_pos (by linarith : upper ≤ x + dx), if_pos (by omega)]
        · rw [if_neg hu,
            if_neg (fun h => absurd (findIdx?_ge _ _ _ _ h) (by omega))]
      · rw [if_neg hl, if_neg hl]
        by_cases hu : upper ≤ x
        · rw [if_pos hu, if_pos hu]
          simp only []
          rw [sampleLoopAux_inds_ui f xmax dx lower upper i n (x + dx) (i + 1)]
          rw [if_neg (fun h => absurd (findIdx?_ge _ _ _ _ h.symm) (by omega))]
        · rw [if_neg hu, if_neg hu]
          simp only []
          rw [ih (x + dx) (i + 1)]
          congr 1
          simp only [upperIndexOfScan]
          rw [show i + ((sampleLoopAux f xmax dx lower upper n (x + dx) (i + 1)
              none none).1.length + 1)
            = i + 1 + (sampleLoopAux f xmax dx lower upper n (x + dx) (i + 1)
              none none).1.length from by omega]
    · simp only [sampleLoopAux, if_neg hg]; rfl

/-! ### The integrator -/

theorem calculate_area_some (b app2 : App) (h : calculate_area b = some app2) :
    app2 = { b with area := app2.area } := by
  unfold calculate_area at h
  rcases hl1 : b.limits_indexs.1 with _ | l
  · rw [hl1] at h; exact absurd h (by simp)
  rcases hl2 : b.limits_indexs.2 with _ | u
  · rw [hl1, hl2] at h; exact absurd h (by simp)
  rw [hl1, hl2] at h
  simp only [] at h
  rcases hs : sliceRange b.data l u with _ | s
  · rw [hs] at h; exact absurd h (by simp)
  rw [hs, Option.some_inj] at h
  rw [← h]

theorem calculate_area_idem (b app2 : App) (h : calculate_area b = some app2) :
    calculate_area app2 = some app2 := by
  unfold calculate_area at h
  rcases hl1 : b.limits_indexs.1 with _ | l
  · rw [hl1] at h; exact absurd h (by simp)
  rcases hl2 : b.limits_indexs.2 with _ | u
  · rw [hl1, hl2] at h; exact absurd h (by simp)
  rw [hl1, hl2] at h
  simp only [] at h
  rcases hs : sliceRange b.data l u with _ | s
  · rw [hs] at h; exact absurd h (by simp)
  rw [hs, Option.some_inj] at h
  subst h
  simp only [calculate_area, hl1, hl2, hs]

/-! ### The bound-line loop -/

theorem boundLineAux_length (x height step : ℚ) (hstep : 0 < step) :
    ∀ (fuel : ℕ) (y : ℚ), fuel = (⌈(height - y) / step⌉).toNat →
      (boundLineAux x height step fuel y).length = fuel := by
  intro fuel
  induction fuel with
  | zero => intro y _; rfl
  | succ n ih =>
    intro y hf
    have hg : y < height := by
      have := pos_of_toNat_ceil_div hstep hf.symm
      linarith [sub_pos.mp this]
    simp only [boundLineAux, if_pos hg, List.length_cons]
    have hnext : n = (⌈(height - (y + step)) / step⌉).toNat := by
      rw [show height - (y + step) = height - y - step by ring]
      exact (toNat_ceil_div_step hstep hf.symm).symm
    rw [ih (y + step) hnext]

theorem boundLineAux_empty (x height step : ℚ) (fuel : ℕ) (y : ℚ)
    (h : ¬y < height) : boundLineAux x height step fuel y = [] := by
  cases fuel with
  | zero => rfl
  | succ n => simp only [boundLineAux, if_neg h]

/-! ### Claim theorems -/

/-- Claim C1: for every SampleSet with both limit indices set and
`lower_index ≤ upper_index ≤ len(samples)`, the Integrator returns
exactly the trapezoidal sum over the half-open index range
`[lower_index, upper_index)`: the sum over each adjacent pair of
samples in that range of `step * (y1 + y2) / 2`, a signed value. -/
theorem calculate_area_trapezoidal (app : App) (l u : ℕ)
    (h : app.limits_indexs = (some l, some u)) (hlu : l ≤ u)
    (hul : u ≤ app.data.length) :
    calculate_area app
      = some { app with
               area := trapezoidalSum app.dx ((app.data.drop l).take (u - l)) } := by
  have h1 : app.limits_indexs.1 = some l := by rw [h]
  have h2 : app.limits_indexs.2 = some u := by rw [h]
  simp only [calculate_area, h1, h2, sliceRange, if_pos (And.intro hlu hul)]
  rw [show (fun w : (ℚ × ℚ) × ℚ × ℚ => app.dx * (w.2.2 + w.1.2) / 2)
      = fun pq : (ℚ × ℚ) × ℚ × ℚ => app.dx * (pq.1.2 + pq.2.2) / 2
    from funext fun w => by ring]
  rfl

/-- Witness for C1: three unit-spaced samples of the identity over the
whole index range give signed area 2 (`= (0+1)/2 + (1+2)/2`). -/
theorem calculate_area_trapezoidal_witness :
    calculate_area exAppTrap
      = some { exAppTrap with
               area := trapezoidalSum exAppTrap.dx ((exAppTrap.data.drop 0).take (3 - 0)) }
    ∧ trapezoidalSum exAppTrap.dx ((exAppTrap.data.drop 0).take (3 - 0)) = 2 :=
  ⟨calculate_area_trapezoidal exAppTrap 0 3 rfl (by decide) (by decide),
   by norm_num [trapezoidalSum, exAppTrap, App.new]⟩

/-- Claim C2 fails on the code (code bug): on the spec's inverted-bounds
scenario (bounds `[3,1]`, here over window `[0,5)` with step 1) the scan
records `lower_index = 3 > 1 = upper_index`, and the Integrator then
panics on the slice `data[3..1]` — modelled as `none` — instead of
reporting an undefined-range error; with an unset upper index it panics
on `unwrap()`. -/
theorem calculate_area_panics_on_undefined_range :
    (sampleLoop (fun x => x) 5 1 3 1 0).2 = (some 3, some 1)
    ∧ calculate_area
        { App.new with data := (sampleLoop (fun x => x) 5 1 3 1 0).1,
                       limits_indexs := (sampleLoop (fun x => x) 5 1 3 1 0).2 } = none
    ∧ calculate_area exAppUnset = none := by
  have hf : (⌈((5:ℚ) - 0) / 1⌉).toNat = 5 := by norm_num [Int.toNat]
  have hscan : sampleLoop (fun x => x) 5 1 3 1 0
      = ([(0, 0), (1, 1), (2, 2), (3, 3), (4, 4)], (some 3, some 1)) := by
    rw [sampleLoop, hf]
    norm_num [sampleLoopAux]
    decide
  rw [hscan]
  exact ⟨rfl, rfl, rfl⟩

/-- Claim C3 fails on the code (code bug): confirming a text field whose
buffer does not parse panics inside `App::handle_events`
(`parse().unwrap()`), modelled as `none` — the process aborts and the
session is lost — instead of keeping the committed value and surfacing
a recoverable error.  Shown for the spec's malformed function text
`"x +"` and for a malformed numeric bound. -/
theorem confirm_parse_failure_panics :
    pfEx "x +" = none
    ∧ handle_events pfEx pnEx exAppBadParse KeyCode.enter = none
    ∧ handle_events pfEx pnEx
        { App.new with bounds_text := ("abc", "0"), settings_focus := .LowerBound }
        KeyCode.enter = none :=
  ⟨rfl, rfl, rfl⟩

/-- Claim C5: for every window with `x_min < x_max` and every step
`> 0`, the sample list produced by the Sampler has length
`⌈(x_max - x_min)/step⌉`, every sample's x lies in `[x_min, x_max)`,
and whenever `App::populate_data` succeeds it stores exactly that list
as the SampleSet. -/
theorem sampler_length_and_range (app : App)
    (_hx : app.window_x.1 < app.window_x.2) (hdx : 0 < app.dx) :
    (sampleLoop app.expression app.window_x.2 app.dx app.bounds.1 app.bounds.2
        app.window_x.1).1.length
      = (⌈(app.window_x.2 - app.window_x.1) / app.dx⌉).toNat
    ∧ (∀ q ∈ (sampleLoop app.expression app.window_x.2 app.dx app.bounds.1 app.bounds.2
          app.window_x.1).1,
        app.window_x.1 ≤ q.1 ∧ q.1 < app.window_x.2)
    ∧ ∀ app2, populate_data app = some app2 →
        app2.data = (sampleLoop app.expression app.window_x.2 app.dx app.bounds.1
          app.bounds.2 app.window_x.1).1 := by
  refine ⟨?_, ?_, ?_⟩
  · exact sampleLoopAux_length app.expression app.window_x.2 app.dx app.bounds.1
      app.bounds.2 hdx _ app.window_x.1 0 none none rfl
  · intro q hq
    exact sampleLoopAux_mem app.expression app.window_x.2 app.dx app.bounds.1
      app.bounds.2 hdx _ app.window_x.1 0 none none q hq
  · intro app2 h2
    unfold populate_data at h2
    have := calculate_area_some _ _ h2
    rw [this]
    rfl

/-- Witness for C5: the identity sampled over `[0, 3)` with step 1 gives
three samples, all with `0 ≤ x < 3`. -/
theorem sampler_length_and_range_witness :
    (sampleLoop exAppWitC5.expression exAppWitC5.window_x.2 exAppWitC5.dx
        exAppWitC5.bounds.1 exAppWitC5.bounds.2 exAppWitC5.window_x.1).1.length
      = (⌈(exAppWitC5.window_x.2 - exAppWitC5.window_x.1) / exAppWitC5.dx⌉).toNat
    ∧ (∀ q ∈ (sampleLoop exAppWitC5.expression exAppWitC5.window_x.2 exAppWitC5.dx
          exAppWitC5.bounds.1 exAppWitC5.bounds.2 exAppWitC5.window_x.1).1,
        exAppWitC5.window_x.1 ≤ q.1 ∧ q.1 < exAppWitC5.window_x.2)
    ∧ ∀ app2, populate_data exAppWitC5 = some app2 →
        app2.data = (sampleLoop exAppWitC5.expression exAppWitC5.window_x.2 exAppWitC5.dx
          exAppWitC5.bounds.1 exAppWitC5.bounds.2 exAppWitC5.window_x.1).1 :=
  sampler_length_and_range exAppWitC5 (by norm_num [exAppWitC5, App.new])
    (by norm_num [exAppWitC5, App.new])

/-- Claim C9: for every function, bound and window, the bound-line loops
terminate; when `function(bound_x) > y_min` a line has exactly 100
points, and when `function(bound_x) ≤ y_min` (including the span-0 case,
where the step `|span|/100` is 0) it is empty — no infinite loop. -/
theorem bound_lines_terminate (app : App) :
    ((app.window_y.1 < app.expression app.bounds.2 →
        (populate_upper_bound_line app).upper_bound_line.length = 100)
      ∧ (app.expression app.bounds.2 ≤ app.window_y.1 →
        (populate_upper_bound_line app).upper_bound_line = []))
    ∧ ((app.window_y.1 < app.expression app.bounds.1 →
        (populate_lower_bound_line app).lower_bound_line.length = 100)
      ∧ (app.expression app.bounds.1 ≤ app.window_y.1 →
        (populate_lower_bound_line app).lower_bound_line = [])) := by
  constructor
  · constructor
    · intro hlt
      simp only [populate_upper_bound_line]
      have habs : |app.window_y.1 - app.expression app.bounds.2|
          = app.expression app.bounds.2 - app.window_y.1 := by
        rw [abs_sub_comm]
        exact abs_of_pos (by linarith)
      rw [habs]
      have hstep : 0 < (app.expression app.bounds.2 - app.window_y.1) / 100 := by
        have : 0 < app.expression app.bounds.2 - app.window_y.1 := by linarith
        positivity
      have hfuel : (⌈(app.expression app.bounds.2 - app.window_y.1)
          / ((app.expression app.bounds.2 - app.window_y.1) / 100)⌉).toNat = 100 := by
        rw [div_div_eq_mul_div, mul_comm, mul_div_assoc,
          div_self (by linarith : app.expression app.bounds.2 - app.window_y.1 ≠ 0),
          mul_one]
        norm_num [Int.toNat]
      rw [hfuel]
      exact boundLineAux_length _ _ _ hstep 100 _ hfuel.symm
    · intro hle
      simp only [populate_upper_bound_line]
      exact boundLineAux_empty _ _ _ _ _ (not_lt.mpr hle)
  · constructor
    · intro hlt
      simp only [populate_lower_bound_line]
      have habs : |app.window_y.1 - app.expression app.bounds.1|
          = app.expression app.bounds.1 - app.window_y.1 := by
        rw [abs_sub_comm]
        exact abs_of_pos (by linarith)
      rw [habs]
      have hstep : 0 < (app.expression app.bounds.1 - app.window_y.1) / 100 := by
        have : 0 < app.expression app.bounds.1 - app.window_y.1 := by linarith
        positivity
      have hfuel : (⌈(app.expression app.bounds.1 - app.window_y.1)
          / ((app.expression app.bounds.1 - app.window_y.1) / 100)⌉).toNat = 100 := by
        rw [div_div_eq_mul_div, mul_comm, mul_div_assoc,
          div_self (by linarith : app.expression app.bounds.1 - app.window_y.1 ≠ 0),
          mul_one]
        norm_num [Int.toNat]
      rw [hfuel]
      exact boundLineAux_length _ _ _ hstep 100 _ hfuel.symm
    · intro hle
      simp only [populate_lower_bound_line]
      exact boundLineAux_empty _ _ _ _ _ (not_lt.mpr hle)

/-- Witness for C9: with the default session (`f = x`, `y_min = -10`,
both bounds 0) the upper bound line has 100 points; raising `y_min` to 3
makes `f(bound_x) = 0 < y_min` and the line comes out empty. -/
theorem bound_lines_terminate_witness :
    (populate_upper_bound_line App.new).upper_bound_line.length = 100
    ∧ (populate_upper_bound_line { App.new with
        window_y := (3, 10) }).upper_bound_line = [] :=
  ⟨(bound_lines_terminate App.new).1.1 (by norm_num [App.new]),
   (bound_lines_terminate { App.new with window_y := (3, 10) }).1.2
     (by norm_num [App.new])⟩

/-- Claim C4 (amended): for every function, window, bounds and positive
step, the scan sets `lower_index` to the index of the first sample whose
`x ≥ lower` (set once, never overwritten); but `upper_index` is not set
independently: the `else if` skips the iteration that sets
`lower_index`, so `upper_index` is the first sample index whose
`x ≥ upper` except when that sample is the very one that sets
`lower_index`, in which case it is the next sample's index (or remains
unset if the scan ends there) — as captured by `upperIndexOfScan`. -/
theorem sampler_indices_characterized (f : ℚ → ℚ) (xmax dx lower upper xmin : ℚ)
    (hdx : 0 < dx) :
    (sampleLoop f xmax dx lower upper xmin).2.1
      = (sampleLoop f xmax dx lower upper xmin).1.findIdx? (fun p => decide (lower ≤ p.1))
    ∧ (sampleLoop f xmax dx lower upper xmin).2.2
      = upperIndexOfScan (sampleLoop f xmax dx lower upper xmin).1 lower upper 0 := by
  have h := sampleLoopAux_inds_none f xmax dx lower upper hdx
    (⌈(xmax - xmin) / dx⌉).toNat xmin 0
  simp only [sampleLoop]
  rw [h]
  exact ⟨rfl, rfl⟩

/-- Counterexample for C4 as stated: identity function over `[0, 3)`
with step 1 and bounds `lower = upper = 0`.  The first sample with
`x ≥ upper` is sample 0, but the scan records `upper_index = 1`
(sample 0 is consumed by the lower-index branch of the `else if`). -/
theorem upper_index_not_first_crossing :
    (sampleLoop (fun x => x) 3 1 0 0 0).2.2 = some 1
    ∧ (sampleLoop (fun x => x) 3 1 0 0 0).1.findIdx?
        (fun p => decide ((0:ℚ) ≤ p.1)) = some 0
    ∧ (sampleLoop (fun x => x) 3 1 0 0 0).2.2
        ≠ (sampleLoop (fun x => x) 3 1 0 0 0).1.findIdx?
            (fun p => decide ((0:ℚ) ≤ p.1)) := by
  have hf : (⌈((3:ℚ) - 0) / 1⌉).toNat = 3 := by norm_num [Int.toNat]
  have hscan : sampleLoop (fun x => x) 3 1 0 0 0
      = ([(0, 0), (1, 1), (2, 2)], (some 0, some 1)) := by
    rw [sampleLoop, hf]
    norm_num [sampleLoopAux]
    decide
  rw [hscan]
  refine ⟨rfl, ?_, ?_⟩
  · norm_num [List.findIdx?_cons]
  · norm_num [List.findIdx?_cons]

/-- Witness for C4 (amended): the characterization applied to the
counterexample input, where it yields `upper_index = some 1`. -/
theorem sampler_indices_characterized_witness :
    ((sampleLoop (fun x => x) 3 1 0 0 0).2.1
      = (sampleLoop (fun x => x) 3 1 0 0 0).1.findIdx? (fun p => decide ((0:ℚ) ≤ p.1))
    ∧ (sampleLoop (fun x => x) 3 1 0 0 0).2.2
      = upperIndexOfScan (sampleLoop (fun x => x) 3 1 0 0 0).1 0 0 0)
    ∧ upperIndexOfScan (sampleLoop (fun x => x) 3 1 0 0 0).1 0 0 0 = some 1 := by
  constructor
  · exact sampler_indices_characterized (fun x => x) 3 1 0 0 0 (by norm_num)
  · have hf : (⌈((3:ℚ) - 0) / 1⌉).toNat = 3 := by norm_num [Int.toNat]
    have hscan : sampleLoop (fun x => x) 3 1 0 0 0
        = ([(0, 0), (1, 1), (2, 2)], (some 0, some 1)) := by
      rw [sampleLoop, hf]
      norm_num [sampleLoopAux]
      decide
    rw [hscan]
    norm_num [upperIndexOfScan, List.findIdx?_cons]

/-- Every in-range coordinate of the 2-by-4 layout resolves to a field. -/
theorem settingsLayout_isSome (y x : ℕ) (hy : y ≤ 1) (hx : x ≤ 3) :
    ∃ s, settingsLayout y x = some s := by
  interval_cases y <;> interval_cases x <;> exact ⟨_, rfl⟩

/-! ### Event-dispatch helpers -/

theorem handle_char_eq (pe : String → Option (ℚ → ℚ)) (pn : String → Option ℚ)
    (app : App) (c : Char) :
    handle_events pe pn app (KeyCode.char c)
      = some (match app.settings_focus with
          | .Function => { app with function_text := app.function_text.push c }
          | .LowerBound =>
            { app with bounds_text := (app.bounds_text.1.push c, app.bounds_text.2) }
          | .UpperBound =>
            { app with bounds_text := (app.bounds_text.1, app.bounds_text.2.push c) }
          | .RecalculateArea => app
          | .MinimumX =>
            { app with window_x_text := (app.window_x_text.1.push c, app.window_x_text.2) }
          | .MaximumX =>
            { app with window_x_text := (app.window_x_text.1, app.window_x_text.2.push c) }
          | .MinimumY =>
            { app with window_y_text := (app.window_y_text.1.push c, app.window_y_text.2) }
          | .MaximumY =>
            { app with window_y_text := (app.window_y_text.1, app.window_y_text.2.push c) }) := by
  cases h : app.settings_focus <;> simp only [handle_events, h]

theorem handle_backspace_eq (pe : String → Option (ℚ → ℚ)) (pn : String → Option ℚ)
    (app : App) :
    handle_events pe pn app KeyCode.backspace
      = some (match app.settings_focus with
          | .Function => { app with function_text := app.function_text.dropRight 1 }
          | .LowerBound =>
            { app with bounds_text := (app.bounds_text.1.dropRight 1, app.bounds_text.2) }
          | .UpperBound =>
            { app with bounds_text := (app.bounds_text.1, app.bounds_text.2.dropRight 1) }
          | .RecalculateArea => app
          | .MinimumX =>
            { app with window_x_text := (app.window_x_text.1.dropRight 1, app.window_x_text.2) }
          | .MaximumX =>
            { app with window_x_text := (app.window_x_text.1, app.window_x_text.2.dropRight 1) }
          | .MinimumY =>
            { app with window_y_text := (app.window_y_text.1.dropRight 1, app.window_y_text.2) }
          | .MaximumY =>
            { app with window_y_text := (app.window_y_text.1, app.window_y_text.2.dropRight 1) }) := by
  cases h : app.settings_focus <;> simp only [handle_events, h]

theorem handle_esc_eq (pe : String → Option (ℚ → ℚ)) (pn : String → Option ℚ)
    (app : App) :
    handle_events pe pn app KeyCode.esc
      = some (match app.active_screen with
          | .Main => { app with exit := true }
          | .Settings => { app with active_screen := CurrentScreen.Main }) := by
  cases h : app.active_screen <;> simp only [handle_events, h]

/-- Claim C6: the focus position stays in the 2-by-4 grid under every
directional move from any in-grid position; moving left from col 0,
right from col 3, up from row 0, or down from row 1 leaves the state
unchanged (clamped, no wrap-around); and while the Main screen is
active every directional move leaves the state unchanged. -/
theorem focus_grid_invariant (pe : String → Option (ℚ → ℚ)) (pn : String → Option ℚ)
    (app : App) (hx : app.settings_position_x ≤ 3) (hy : app.settings_position_y ≤ 1) :
    (∀ key, (key = KeyCode.left ∨ key = KeyCode.right ∨ key = KeyCode.up
        ∨ key = KeyCode.down) →
      ∃ app2, handle_events pe pn app key = some app2
        ∧ app2.settings_position_x ≤ 3 ∧ app2.settings_position_y ≤ 1)
    ∧ (app.settings_position_x = 0 →
        handle_events pe pn app KeyCode.left = some app)
    ∧ (app.settings_position_x = 3 →
        handle_events pe pn app KeyCode.right = some app)
    ∧ (app.settings_position_y = 0 →
        handle_events pe pn app KeyCode.up = some app)
    ∧ (app.settings_position_y = 1 →
        handle_events pe pn app KeyCode.down = some app)
    ∧ (app.active_screen = CurrentScreen.Main →
        handle_events pe pn app KeyCode.left = some app
        ∧ handle_events pe pn app KeyCode.right = some app
        ∧ handle_events pe pn app KeyCode.up = some app
        ∧ handle_events pe pn app KeyCode.down = some app) := by
  refine ⟨?_, ?_, ?_, ?_, ?_, ?_⟩
  · rintro key (rfl | rfl | rfl | rfl)
    · by_cases hc : app.settings_position_x ≠ 0
          ∧ app.active_screen = CurrentScreen.Settings
      · obtain ⟨s, hs⟩ := settingsLayout_isSome app.settings_position_y
          (app.settings_position_x - 1) hy (by omega)
        exact ⟨{ app with settings_position_x := app.settings_position_x - 1,
                          settings_focus := s },
          by simp only [handle_events, if_pos hc, hs], by simp only []; omega, hy⟩
      · exact ⟨app, by simp only [handle_events, if_neg hc], hx, hy⟩
    · by_cases hc : app.settings_position_x ≠ 3
          ∧ app.active_screen = CurrentScreen.Settings
      · obtain ⟨s, hs⟩ := settingsLayout_isSome app.settings_position_y
          (app.settings_position_x + 1) hy (by have := hc.1; omega)
        exact ⟨{ app with settings_position_x := app.settings_position_x + 1,
                          settings_focus := s },
          by simp only [handle_events, if_pos hc, hs],
          by simp only []; have := hc.1; omega, hy⟩
      · exact ⟨app, by simp only [handle_events, if_neg hc], hx, hy⟩
    · by_cases hc : app.settings_position_y ≠ 0
          ∧ app.active_screen = CurrentScreen.Settings
      · obtain ⟨s, hs⟩ := settingsLayout_isSome (app.settings_position_y - 1)
          app.settings_position_x (by omega) hx
        exact ⟨{ app with settings_position_y := app.settings_position_y - 1,
                          settings_focus := s },
          by simp only [handle_events, if_pos hc, hs], hx, by simp only []; omega⟩
      · exact ⟨app, by simp only [handle_events, if_neg hc], hx, hy⟩
    · by_cases hc : app.settings_position_y ≠ 1
          ∧ app.active_screen = CurrentScreen.Settings
      · obtain ⟨s, hs⟩ := settingsLayout_isSome (app.settings_position_y + 1)
          app.settings_position_x (by have := hc.1; omega) hx
        exact ⟨{ app with settings_position_y := app.settings_position_y + 1,
                          settings_focus := s },
          by simp only [handle_events, if_pos hc, hs], hx,
          by simp only []; have := hc.1; omega⟩
      · exact ⟨app, by simp only [handle_events, if_neg hc], hx, hy⟩
  · intro h0
    simp only [handle_events]
    rw [if_neg (fun hcon => hcon.1 h0)]
  · intro h3
    simp only [handle_events]
    rw [if_neg (fun hcon => hcon.1 h3)]
  · intro h0
    simp only [handle_events]
    rw [if_neg (fun hcon => hcon.1 h0)]
  · intro h1
    simp only [handle_events]
    rw [if_neg (fun hcon => hcon.1 h1)]
  · intro hmain
    have hns : app.active_screen ≠ CurrentScreen.Settings := by
      rw [hmain]; decide
    refine ⟨?_, ?_, ?_, ?_⟩ <;>
      · simp only [handle_events]
        rw [if_neg (fun hcon => hns hcon.2)]

/-- Witness for C6: a concrete Settings-screen session focused at
row 1, col 2. -/
theorem focus_grid_invariant_witness :
    (∀ key, (key = KeyCode.left ∨ key = KeyCode.right ∨ key = KeyCode.up
        ∨ key = KeyCode.down) →
      ∃ app2, handle_events pfEx pnEx exAppFocus key = some app2
        ∧ app2.settings_position_x ≤ 3 ∧ app2.settings_position_y ≤ 1)
    ∧ (exAppFocus.settings_position_x = 0 →
        handle_events pfEx pnEx exAppFocus KeyCode.left = some exAppFocus)
    ∧ (exAppFocus.settings_position_x = 3 →
        handle_events pfEx pnEx exAppFocus KeyCode.right = some exAppFocus)
    ∧ (exAppFocus.settings_position_y = 0 →
        handle_events pfEx pnEx exAppFocus KeyCode.up = some exAppFocus)
    ∧ (exAppFocus.settings_position_y = 1 →
        handle_events pfEx pnEx exAppFocus KeyCode.down = some exAppFocus)
    ∧ (exAppFocus.active_screen = CurrentScreen.Main →
        handle_events pfEx pnEx exAppFocus KeyCode.left = some exAppFocus
        ∧ handle_events pfEx pnEx exAppFocus KeyCode.right = some exAppFocus
        ∧ handle_events pfEx pnEx exAppFocus KeyCode.up = some exAppFocus
        ∧ handle_events pfEx pnEx exAppFocus KeyCode.down = some exAppFocus) :=
  focus_grid_invariant pfEx pnEx exAppFocus (by decide) (by decide)

/-- Claim C7 fails on the code: character input is routed to the focused
buffer regardless of the active screen.  At the initial state the Main
screen is active, yet typing `a` changes the function buffer from `"x"`
to `"xa"`. -/
theorem char_input_mutates_on_main :
    App.new.active_screen = CurrentScreen.Main
    ∧ handle_events pfEx pnEx App.new (KeyCode.char 'a')
        = some { App.new with function_text := "xa" }
    ∧ ({ App.new with function_text := "xa" } : App).function_text
        ≠ App.new.function_text :=
  ⟨rfl, rfl, by decide⟩

/-- Claim C7 (amended): for every session state — while the Main screen
is active just as on Settings — a character event appends the character
to the focused field's text buffer and a backspace drops the focused
buffer's last character (both no-ops for the RecalculateArea trigger,
which has no buffer; backspace is a no-op on an empty buffer), and
nothing else in the session changes: the active screen plays no role in
character and backspace dispatch. -/
theorem char_backspace_regardless_of_screen (pe : String → Option (ℚ → ℚ))
    (pn : String → Option ℚ) (app : App) (c : Char) :
    handle_events pe pn app (KeyCode.char c)
      = some (match app.settings_focus with
          | .Function => { app with function_text := app.function_text.push c }
          | .LowerBound =>
            { app with bounds_text := (app.bounds_text.1.push c, app.bounds_text.2) }
          | .UpperBound =>
            { app with bounds_text := (app.bounds_text.1, app.bounds_text.2.push c) }
          | .RecalculateArea => app
          | .MinimumX =>
            { app with window_x_text := (app.window_x_text.1.push c, app.window_x_text.2) }
          | .MaximumX =>
            { app with window_x_text := (app.window_x_text.1, app.window_x_text.2.push c) }
          | .MinimumY =>
            { app with window_y_text := (app.window_y_text.1.push c, app.window_y_text.2) }
          | .MaximumY =>
            { app with window_y_text := (app.window_y_text.1, app.window_y_text.2.push c) })
    ∧ handle_events pe pn app KeyCode.backspace
      = some (match app.settings_focus with
          | .Function => { app with function_text := app.function_text.dropRight 1 }
          | .LowerBound =>
            { app with bounds_text := (app.bounds_text.1.dropRight 1, app.bounds_text.2) }
          | .UpperBound =>
            { app with bounds_text := (app.bounds_text.1, app.bounds_text.2.dropRight 1) }
          | .RecalculateArea => app
          | .MinimumX =>
            { app with window_x_text := (app.window_x_text.1.dropRight 1, app.window_x_text.2) }
          | .MaximumX =>
            { app with window_x_text := (app.window_x_text.1, app.window_x_text.2.dropRight 1) }
          | .MinimumY =>
            { app with window_y_text := (app.window_y_text.1.dropRight 1, app.window_y_text.2) }
          | .MaximumY =>
            { app with window_y_text := (app.window_y_text.1, app.window_y_text.2.dropRight 1) }) :=
  ⟨handle_char_eq pe pn app c, handle_backspace_eq pe pn app⟩

/-- Claim C8: a confirm on the RecalculateArea trigger re-runs only the
Integrator against the existing SampleSet: whenever it returns, the new
state differs from the old at most in `area` — data, limit indices,
bound lines, zero line, function, bounds and window are untouched (no
resampling) — and confirming again returns the very same state, so the
AreaResult is the same both times. -/
theorem recalculate_area_frame_idempotent (pe : String → Option (ℚ → ℚ))
    (pn : String → Option ℚ) (app app2 : App)
    (hfoc : app.settings_focus = Settings.RecalculateArea)
    (h : handle_events pe pn app KeyCode.enter = some app2) :
    app2 = { app with area := app2.area }
    ∧ app2.data = app.data
    ∧ app2.limits_indexs = app.limits_indexs
    ∧ app2.upper_bound_line = app.upper_bound_line
    ∧ app2.lower_bound_line = app.lower_bound_line
    ∧ app2.x_axis_line = app.x_axis_line
    ∧ app2.expression = app.expression
    ∧ app2.bounds = app.bounds
    ∧ app2.window_x = app.window_x
    ∧ app2.window_y = app.window_y
    ∧ handle_events pe pn app2 KeyCode.enter = some app2 := by
  rw [show handle_events pe pn app KeyCode.enter = calculate_area app from by
    simp only [handle_events, hfoc]] at h
  have hfr := calculate_area_some _ _ h
  have hidem := calculate_area_idem _ _ h
  have hfoc2 : app2.settings_focus = Settings.RecalculateArea := by
    rw [hfr]; exact hfoc
  refine ⟨hfr, ?_, ?_, ?_, ?_, ?_, ?_, ?_, ?_, ?_, ?_⟩
  · rw [hfr]
  · rw [hfr]
  · rw [hfr]
  · rw [hfr]
  · rw [hfr]
  · rw [hfr]
  · rw [hfr]
  · rw [hfr]
  · rw [hfr]
  · simp only [handle_events, hfoc2]
    exact hidem

/-- Witness for C8: at a session focused on RecalculateArea with an
empty selected range, confirming computes area 0 and leaves everything
else unchanged; confirming again returns the same state. -/
theorem recalculate_area_frame_idempotent_witness :
    ({ exAppRecalc with area := 0 } : App)
      = { exAppRecalc with area := ({ exAppRecalc with area := 0 } : App).area }
    ∧ ({ exAppRecalc with area := 0 } : App).data = exAppRecalc.data
    ∧ ({ exAppRecalc with area := 0 } : App).limits_indexs = exAppRecalc.limits_indexs
    ∧ ({ exAppRecalc with area := 0 } : App).upper_bound_line = exAppRecalc.upper_bound_line
    ∧ ({ exAppRecalc with area := 0 } : App).lower_bound_line = exAppRecalc.lower_bound_line
    ∧ ({ exAppRecalc with area := 0 } : App).x_axis_line = exAppRecalc.x_axis_line
    ∧ ({ exAppRecalc with area := 0 } : App).expression = exAppRecalc.expression
    ∧ ({ exAppRecalc with area := 0 } : App).bounds = exAppRecalc.bounds
    ∧ ({ exAppRecalc with area := 0 } : App).window_x = exAppRecalc.window_x
    ∧ ({ exAppRecalc with area := 0 } : App).window_y = exAppRecalc.window_y
    ∧ handle_events pfEx pnEx { exAppRecalc with area := 0 } KeyCode.enter
        = some { exAppRecalc with area := 0 } :=
  recalculate_area_frame_idempotent pfEx pnEx exAppRecalc
    { exAppRecalc with area := 0 } rfl rfl

/-- Claim C10: at startup the session holds exactly the documented
defaults — function text `"x"`, window `[-5,5] × [-10,10]`, bounds
`[0,0]`, Main screen, focus at Function in row 0, col 0 — but no
sampling has been performed: the SampleSet, both bound lines and the
zero line are empty, the limit indices unset and the AreaResult 0; and
every event other than a confirm (`Enter`) leaves all of those
untouched, so they stay empty until the first confirm triggers a
recompute. -/
theorem initial_state_empty_until_confirm (pe : String → Option (ℚ → ℚ))
    (pn : String → Option ℚ) :
    App.new.function_text = "x"
    ∧ App.new.window_x = (-5, 5) ∧ App.new.window_y = (-10, 10)
    ∧ App.new.bounds = (0, 0)
    ∧ App.new.active_screen = CurrentScreen.Main
    ∧ App.new.settings_focus = Settings.Function
    ∧ App.new.settings_position_x = 0 ∧ App.new.settings_position_y = 0
    ∧ App.new.data = [] ∧ App.new.limits_indexs = (none, none)
    ∧ App.new.upper_bound_line = [] ∧ App.new.lower_bound_line = []
    ∧ App.new.x_axis_line = [] ∧ App.new.area = 0
    ∧ ∀ (app : App) (key : KeyCode), key ≠ KeyCode.enter →
        app.settings_position_x ≤ 3 → app.settings_position_y ≤ 1 →
        ∃ app2, handle_events pe pn app key = some app2
          ∧ app2.data = app.data ∧ app2.limits_indexs = app.limits_indexs
          ∧ app2.upper_bound_line = app.upper_bound_line
          ∧ app2.lower_bound_line = app.lower_bound_line
          ∧ app2.x_axis_line = app.x_axis_line
          ∧ app2.area = app.area := by
  refine ⟨rfl, rfl, rfl, rfl, rfl, rfl, rfl, rfl, rfl, rfl, rfl, rfl, rfl, rfl, ?_⟩
  intro app key hkey hx hy
  cases key with
  | char c =>
    rw [handle_char_eq]
    cases h : app.settings_focus <;> exact ⟨_, rfl, rfl, rfl, rfl, rfl, rfl, rfl⟩
  | backspace =>
    rw [handle_backspace_eq]
    cases h : app.settings_focus <;> exact ⟨_, rfl, rfl, rfl, rfl, rfl, rfl, rfl⟩
  | enter => exact absurd rfl hkey
  | left =>
    by_cases hc : app.settings_position_x ≠ 0
        ∧ app.active_screen = CurrentScreen.Settings
    · obtain ⟨s, hs⟩ := settingsLayout_isSome app.settings_position_y
        (app.settings_position_x - 1) hy (by omega)
      exact ⟨{ app with settings_position_x := app.settings_position_x - 1,
                        settings_focus := s },
        by simp only [handle_events, if_pos hc, hs], rfl, rfl, rfl, rfl, rfl, rfl⟩
    · exact ⟨app, by simp only [handle_events, if_neg hc], rfl, rfl, rfl, rfl, rfl, rfl⟩
  | right =>
    by_cases hc : app.settings_position_x ≠ 3
        ∧ app.active_screen = CurrentScreen.Settings
    · obtain ⟨s, hs⟩ := settingsLayout_isSome app.settings_position_y
        (app.settings_position_x + 1) hy (by have := hc.1; omega)
      exact ⟨{ app with settings_position_x := app.settings_position_x + 1,
                        settings_focus := s },
        by simp only [handle_events, if_pos hc, hs], rfl, rfl, rfl, rfl, rfl, rfl⟩
    · exact ⟨app, by simp only [handle_events, if_neg hc], rfl, rfl, rfl, rfl, rfl, rfl⟩
  | up =>
    by_cases hc : app.settings_position_y ≠ 0
        ∧ app.active_screen = CurrentScreen.Settings
    · obtain ⟨s, hs⟩ := settingsLayout_isSome (app.settings_position_y - 1)
        app.settings_position_x (by omega) hx
      exact ⟨{ app with settings_position_y := app.settings_position_y - 1,
                        settings_focus := s },
        by simp only [handle_events, if_pos hc, hs], rfl, rfl, rfl, rfl, rfl, rfl⟩
    · exact ⟨app, by simp only [handle_events, if_neg hc], rfl, rfl, rfl, rfl, rfl, rfl⟩
  | down =>
    by_cases hc : app.settings_position_y ≠ 1
        ∧ app.active_screen = CurrentScreen.Settings
    · obtain ⟨s, hs⟩ := settingsLayout_isSome (app.settings_position_y + 1)
        app.settings_position_x (by have := hc.1; omega) hx
      exact ⟨{ app with settings_position_y := app.settings_position_y + 1,
                        settings_focus := s },
        by simp only [handle_events, if_pos hc, hs], rfl, rfl, rfl, rfl, rfl, rfl⟩
    · exact ⟨app, by simp only [handle_events, if_neg hc], rfl, rfl, rfl, rfl, rfl, rfl⟩
  | esc =>
    rw [handle_esc_eq]
    cases h : app.active_screen <;> exact ⟨_, rfl, rfl, rfl, rfl, rfl, rfl, rfl⟩
  | tab => exact ⟨_, rfl, rfl, rfl, rfl, rfl, rfl, rfl⟩
  | other => exact ⟨app, rfl, rfl, rfl, rfl, rfl, rfl, rfl⟩

/-- Witness for C10: the preservation part applied at the initial state
to a concrete non-confirm event (typing the character `2`). -/
theorem initial_state_empty_until_confirm_witness :
    ∃ app2, handle_events pfEx pnEx App.new (KeyCode.char (Char.ofNat 50)) = some app2
      ∧ app2.data = App.new.data ∧ app2.limits_indexs = App.new.limits_indexs
      ∧ app2.upper_bound_line = App.new.upper_bound_line
      ∧ app2.lower_bound_line = App.new.lower_bound_line
      ∧ app2.x_axis_line = App.new.x_axis_line
      ∧ app2.area = App.new.area :=
  (initial_state_empty_until_confirm pfEx pnEx).2.2.2.2.2.2.2.2.2.2.2.2.2.2
    App.new (KeyCode.char (Char.ofNat 50)) (by intro h; cases h) (by decide) (by decide)

end NumInt
